import Mathlib

/-!
# Functional options builder and request validation (package `example`)

A shallow embedding of two Go templates of the repository:

* `functional_options.go`: `config`, `defaultConfig`, the `Option` interface with its
  five implementing types, the `With...` constructors and `NewService`;
* `http_handler.go`: `CreateUserRequest`, the sentinel errors and
  `validateCreateUserRequest`.

Go statements that mutate through a pointer are written in explicit state-passing style.
The program state holds the package variable `defaultConfig` and the heap cells that
`&Service{...}` allocates; a run-time panic is an `Except.error`.
`time.Duration` (an `int64`) and `int` are embedded in `Int`: the code performs no
arithmetic on them at run time, so no wrap-around can occur.
-/

namespace Example

/-! ## Standard library pieces used by the templates -/

/-- Go `time.Duration`: a signed count of nanoseconds. -/
abbrev time.Duration := Int

/-- Go constant `time.Second`, one second in nanoseconds. -/
def time.Second : time.Duration := 1000000000

/-! ## functional_options.go -/

/-- Go `type config struct`: the configuration record. -/
structure config where
  timeout : time.Duration
  retries : Int
  cacheEnabled : Bool
  logLevel : String
deriving DecidableEq

/-- Go `var defaultConfig = config{...}`: the initial value of the package variable. -/
def defaultConfig : config :=
  { timeout := 30 * time.Second
    retries := 3
    cacheEnabled := true
    logLevel := "info" }

/-- Go `type Service struct { cfg config }`. -/
structure Service where
  cfg : config
deriving DecidableEq

/-- Mutable program state visible to the package: the package-level variable
`defaultConfig` and the `Service` objects allocated so far (a `*Service` is an index
into `services`). -/
structure State where
  defaultConfig : config
  services : List Service
deriving DecidableEq

/-- Run-time aborts of a Go call. -/
inductive Fault where
  | nilDereference
  | panic (msg : String)
deriving DecidableEq

/-- Go `type OptionFunc func(*config)`: an arbitrary function value receiving a pointer
to the configuration under construction. Its body may read and write the pointee and the
package state, and it may panic; calling a nil function value is the body that always
faults with `nilDereference`. -/
abbrev OptionFunc := config → State → Except Fault (config × State)

/-- Go `type Option interface { apply(*config) }`: the values an `Option` variable can
hold, namely the nil interface value or a value of one of the five types of the package
that have an `apply` method. -/
inductive Option where
  | nil
  | timeoutOption (t : time.Duration)
  | retriesOption (r : Int)
  | cacheOption (c : Bool)
  | logLevelOption (l : String)
  | optionFunc (f : OptionFunc)

/-- Go `func (t timeoutOption) apply(cfg *config)`. -/
def timeoutOption.apply (t : time.Duration) (cfg : config) : config :=
  { cfg with timeout := t }

/-- Go `func (r retriesOption) apply(cfg *config)`. -/
def retriesOption.apply (r : Int) (cfg : config) : config :=
  { cfg with retries := r }

/-- Go `func (c cacheOption) apply(cfg *config)`. -/
def cacheOption.apply (c : Bool) (cfg : config) : config :=
  { cfg with cacheEnabled := c }

/-- Go `func (l logLevelOption) apply(cfg *config)`. -/
def logLevelOption.apply (l : String) (cfg : config) : config :=
  { cfg with logLevel := l }

/-- Go `func (f OptionFunc) apply(cfg *config) { f(cfg) }`. -/
def OptionFunc.apply (f : OptionFunc) (cfg : config) (st : State) :
    Except Fault (config × State) :=
  f cfg st

/-- Dynamic dispatch of `opt.apply(&cfg)` on an interface value; a method call on the
nil interface panics. -/
def Option.apply : Option → config → State → Except Fault (config × State)
  | .nil, _, _ => .error .nilDereference
  | .timeoutOption t, cfg, st => .ok (timeoutOption.apply t cfg, st)
  | .retriesOption r, cfg, st => .ok (retriesOption.apply r cfg, st)
  | .cacheOption c, cfg, st => .ok (cacheOption.apply c cfg, st)
  | .logLevelOption l, cfg, st => .ok (logLevelOption.apply l cfg, st)
  | .optionFunc f, cfg, st => OptionFunc.apply f cfg st

/-- Go `func WithTimeout(d time.Duration) Option`. -/
def WithTimeout (d : time.Duration) : Option := .timeoutOption d

/-- Go `func WithRetries(n int) Option`. -/
def WithRetries (n : Int) : Option := .retriesOption n

/-- Go `func WithCache(enabled bool) Option`. -/
def WithCache (enabled : Bool) : Option := .cacheOption enabled

/-- Go `func WithLogLevel(level string) Option`. -/
def WithLogLevel (level : String) : Option := .logLevelOption level

/-- Go `func WithTimeoutFunc(d time.Duration) OptionFunc`. -/
def WithTimeoutFunc (d : time.Duration) : OptionFunc :=
  fun cfg st => .ok ({ cfg with timeout := d }, st)

/-- Go `func WithRetriesFunc(n int) OptionFunc`. -/
def WithRetriesFunc (n : Int) : OptionFunc :=
  fun cfg st => .ok ({ cfg with retries := n }, st)

/-- The loop `for _, opt := range opts { opt.apply(&cfg) }` of `NewService`. -/
def applyAll : List Option → config → State → Except Fault (config × State)
  | [], cfg, st => .ok (cfg, st)
  | opt :: rest, cfg, st =>
    match opt.apply cfg st with
    | .error e => .error e
    | .ok (cfg', st') => applyAll rest cfg' st'

/-- Go `func NewService(addr string, opts ...Option) *Service`: copy the package
variable into the local `cfg`, run the loop, allocate `Service{cfg: cfg}` and return
its address. -/
def NewService (_addr : String) (opts : List Option) (st : State) :
    Except Fault (Nat × State) :=
  match applyAll opts st.defaultConfig st with
  | .error e => .error e
  | .ok (cfg, st') =>
    .ok (st'.services.length, { st' with services := st'.services ++ [{ cfg := cfg }] })

/-- The expression `NewService(addr, opts...).cfg`: the configuration stored in the
object the returned pointer designates. -/
def NewService.cfg (addr : String) (opts : List Option) (st : State) :
    Except Fault config :=
  match NewService addr opts st with
  | .error e => .error e
  | .ok (p, st') =>
    match st'.services[p]? with
    | some s => .ok s.cfg
    | none => .error .nilDereference

/-- Program state right after package initialisation: `defaultConfig` holds its
initialiser and no `Service` has been allocated. -/
def initialState : State :=
  { defaultConfig := defaultConfig, services := [] }

/-! ## Which modifiers a caller obtained from the package -/

/-- Values returned by the four interface-based constructors `WithTimeout`,
`WithRetries`, `WithCache` and `WithLogLevel`. -/
inductive BuiltByWith : Option → Prop
  | timeout (d : time.Duration) : BuiltByWith (WithTimeout d)
  | retries (n : Int) : BuiltByWith (WithRetries n)
  | cache (enabled : Bool) : BuiltByWith (WithCache enabled)
  | logLevel (level : String) : BuiltByWith (WithLogLevel level)

/-- Values returned by any of the six constructors of the package: the four above and
the closures of `WithTimeoutFunc` and `WithRetriesFunc` converted to `Option`. -/
inductive BuiltByPackage : Option → Prop
  | timeout (d : time.Duration) : BuiltByPackage (WithTimeout d)
  | retries (n : Int) : BuiltByPackage (WithRetries n)
  | cache (enabled : Bool) : BuiltByPackage (WithCache enabled)
  | logLevel (level : String) : BuiltByPackage (WithLogLevel level)
  | timeoutFunc (d : time.Duration) : BuiltByPackage (.optionFunc (WithTimeoutFunc d))
  | retriesFunc (n : Int) : BuiltByPackage (.optionFunc (WithRetriesFunc n))

/-- A modifier that completes without fault, leaves the program state alone and keeps
the projection `π` of the configuration. -/
def Keeps {α : Type} (π : config → α) (m : Option) : Prop :=
  ∀ cfg st, ∃ cfg', m.apply cfg st = .ok (cfg', st) ∧ π cfg' = π cfg

/-- A modifier that completes without fault, leaves the program state alone and makes
the projection `π` of the configuration equal to `v`. -/
def Puts {α : Type} (π : config → α) (v : α) (m : Option) : Prop :=
  ∀ cfg st, ∃ cfg', m.apply cfg st = .ok (cfg', st) ∧ π cfg' = v

/-- A state-independent write to exactly one field: one of the four fields receives a
value fixed by the modifier alone, the other three fields and the program state are
left as they were, and no fault occurs. -/
def WritesOneField (m : Option) : Prop :=
  (∃ d, ∀ cfg st, m.apply cfg st = .ok ({ cfg with timeout := d }, st)) ∨
  (∃ n, ∀ cfg st, m.apply cfg st = .ok ({ cfg with retries := n }, st)) ∨
  (∃ b, ∀ cfg st, m.apply cfg st = .ok ({ cfg with cacheEnabled := b }, st)) ∨
  (∃ l, ∀ cfg st, m.apply cfg st = .ok ({ cfg with logLevel := l }, st))

/-- A value of type `OptionFunc` that no constructor of the package returns, the Go
literal `func(cfg *config) { cfg.retries = 0; cfg.cacheEnabled = !cfg.cacheEnabled }`. -/
def resetAndToggle : OptionFunc :=
  fun cfg st => .ok ({ cfg with retries := 0, cacheEnabled := !cfg.cacheEnabled }, st)

/-- One position of a call after a `WithTimeout` / `WithRetries` argument may have been
replaced by its closure counterpart: the argument is kept, or `WithTimeout d` became
`WithTimeoutFunc d`, or `WithRetries n` became `WithRetriesFunc n`. -/
inductive FuncCounterpart : Option → Option → Prop
  | same (m : Option) : FuncCounterpart m m
  | timeout (d : time.Duration) :
      FuncCounterpart (WithTimeout d) (.optionFunc (WithTimeoutFunc d))
  | retries (n : Int) :
      FuncCounterpart (WithRetries n) (.optionFunc (WithRetriesFunc n))

/-! ## http_handler.go -/

/-- Go `type CreateUserRequest struct`. -/
structure CreateUserRequest where
  Name : String
  Email : String
deriving DecidableEq

/-- Go `error` values occurring in the template: the nil error, a `*errors.errorString`
made by `errors.New` and a `*fmt.wrapError` made by `fmt.Errorf` with a `%w` verb, which
keeps its operand. Both are pointers, so each carries the address `id` of its
allocation and `==` on two values of one kind holds only for the same allocation (the
contents are fixed at allocation, so equal addresses mean equal contents). -/
inductive error where
  | nil
  | errorString (id : Nat) (s : String)
  | wrapError (id : Nat) (msg : String) (err : error)
deriving DecidableEq

/-- Go method `Error() string` of the error values above. The template never calls it
on the nil error (Go would panic there); the embedding gives the empty text. -/
def error.Error : error → String
  | .nil => ""
  | .errorString _ s => s
  | .wrapError _ msg _ => msg

/-- Go interface comparison `err == target` on error values: equal dynamic type and,
for the two pointer types, equal address. -/
def error.same : error → error → Bool
  | .nil, .nil => true
  | .errorString i _, .errorString j _ => decide (i = j)
  | .wrapError i _ _, .wrapError j _ _ => decide (i = j)
  | _, _ => false

/-- Go `fmt.Errorf("%w" + rest, err)` for a non-nil `err`, allocating its result at
address `id`: the text is the operand's text followed by `rest`, and `Unwrap` of the
result is the operand. -/
def fmt.ErrorfW (id : Nat) (rest : String) (err : error) : error :=
  .wrapError id (err.Error ++ rest) err

/-- The loop of Go `errors.Is`: compare, then follow `Unwrap` until it ends. -/
def errors.is : error → error → Bool
  | .nil, _ => false
  | .errorString id s, target => error.same (.errorString id s) target
  | .wrapError id msg err, target =>
    if error.same (.wrapError id msg err) target then true
    else if err = .nil then false
    else errors.is err target

/-- Go `errors.Is(err, target)`. -/
def errors.Is (err target : error) : Bool :=
  if err = .nil ∨ target = .nil then error.same err target else errors.is err target

/-- Go `ErrInvalidInput = errors.New("invalid input")`. -/
def ErrInvalidInput : error := .errorString 0 "invalid input"

/-- Go `ErrUserExists = errors.New("user already exists")`. -/
def ErrUserExists : error := .errorString 1 "user already exists"

/-- Go `func validateCreateUserRequest(req CreateUserRequest) error`; `fresh` is the
address at which the runtime allocates the error value a failing call creates. -/
def validateCreateUserRequest (req : CreateUserRequest) (fresh : Nat) : error :=
  if req.Name = "" then fmt.ErrorfW fresh ": name is required" ErrInvalidInput
  else if req.Email = "" then fmt.ErrorfW fresh ": email is required" ErrInvalidInput
  else .nil

/-! ## Helper lemmas about the loop and the allocation -/

theorem applyAll_append (xs ys : List Option) (cfg : config) (st : State) :
    applyAll (xs ++ ys) cfg st =
      match applyAll xs cfg st with
      | .error e => .error e
      | .ok (cfg', st') => applyAll ys cfg' st' := by
  induction xs generalizing cfg st with
  | nil => rfl
  | cons x xs ih =>
    simp only [List.cons_append, applyAll]
    cases hx : x.apply cfg st with
    | error e => rfl
    | ok r => exact ih r.1 r.2

theorem applyAll_keeps {α : Type} (π : config → α) (opts : List Option)
    (h : ∀ m ∈ opts, Keeps π m) (cfg : config) (st : State) :
    ∃ cfg', applyAll opts cfg st = .ok (cfg', st) ∧ π cfg' = π cfg := by
  induction opts generalizing cfg with
  | nil => exact ⟨cfg, rfl, rfl⟩
  | cons x xs ih =>
    obtain ⟨c1, h1, hπ1⟩ := h x (List.mem_cons_self x xs) cfg st
    obtain ⟨c2, h2, hπ2⟩ := ih (fun m hm => h m (List.mem_cons_of_mem x hm)) c1
    exact ⟨c2, by simp only [applyAll, h1, h2], hπ2.trans hπ1⟩

theorem applyAll_last {α : Type} (π : config → α) (v : α) (pre post : List Option)
    (m : Option) (hpre : ∀ x ∈ pre, Keeps (fun _ => ()) x) (hm : Puts π v m)
    (hpost : ∀ x ∈ post, Keeps π x) (cfg : config) (st : State) :
    ∃ cfg', applyAll (pre ++ m :: post) cfg st = .ok (cfg', st) ∧ π cfg' = v := by
  obtain ⟨c1, h1, -⟩ := applyAll_keeps (fun _ => ()) pre hpre cfg st
  obtain ⟨c2, h2, hv⟩ := hm c1 st
  obtain ⟨c3, h3, hk⟩ := applyAll_keeps π post hpost c2 st
  refine ⟨c3, ?_, hk.trans hv⟩
  rw [applyAll_append, h1]
  simp only [applyAll, h2, h3]

theorem NewService_of_applyAll (addr : String) (opts : List Option) (st st' : State)
    (cfg : config) (h : applyAll opts st.defaultConfig st = .ok (cfg, st')) :
    NewService addr opts st =
      .ok (st'.services.length, { st' with services := st'.services ++ [{ cfg := cfg }] }) := by
  simp only [NewService, h]

theorem NewService_cfg_of_applyAll (addr : String) (opts : List Option) (st st' : State)
    (cfg : config) (h : applyAll opts st.defaultConfig st = .ok (cfg, st')) :
    NewService.cfg addr opts st = .ok cfg := by
  simp [NewService.cfg, NewService, h]

theorem keeps_unit_of_built (m : Option) (h : BuiltByPackage m) : Keeps (fun _ => ()) m := by
  intro cfg st
  cases h <;> exact ⟨_, rfl, rfl⟩

theorem built_of_with (m : Option) (h : BuiltByWith m) : BuiltByPackage m := by
  cases h
  · exact .timeout _
  · exact .retries _
  · exact .cache _
  · exact .logLevel _

theorem applyAll_built (opts : List Option) (h : ∀ m ∈ opts, BuiltByPackage m)
    (cfg : config) (st : State) : ∃ cfg', applyAll opts cfg st = .ok (cfg', st) := by
  obtain ⟨c, hc, -⟩ :=
    applyAll_keeps (fun _ => ()) opts (fun m hm => keeps_unit_of_built m (h m hm)) cfg st
  exact ⟨c, hc⟩

theorem puts_timeout (d : time.Duration) : Puts config.timeout d (WithTimeout d) :=
  fun _ _ => ⟨_, rfl, rfl⟩

theorem puts_retries (n : Int) : Puts config.retries n (WithRetries n) :=
  fun _ _ => ⟨_, rfl, rfl⟩

theorem puts_cache (b : Bool) : Puts config.cacheEnabled b (WithCache b) :=
  fun _ _ => ⟨_, rfl, rfl⟩

theorem puts_logLevel (l : String) : Puts config.logLevel l (WithLogLevel l) :=
  fun _ _ => ⟨_, rfl, rfl⟩

theorem keeps_timeout (m : Option) (h : BuiltByWith m) (hn : ∀ d, m ≠ WithTimeout d) :
    Keeps config.timeout m := by
  intro cfg st
  cases h
  · exact absurd rfl (hn _)
  all_goals exact ⟨_, rfl, rfl⟩

theorem keeps_retries (m : Option) (h : BuiltByWith m) (hn : ∀ n, m ≠ WithRetries n) :
    Keeps config.retries m := by
  intro cfg st
  cases h
  · exact ⟨_, rfl, rfl⟩
  · exact absurd rfl (hn _)
  all_goals exact ⟨_, rfl, rfl⟩

theorem keeps_cache (m : Option) (h : BuiltByWith m) (hn : ∀ b, m ≠ WithCache b) :
    Keeps config.cacheEnabled m := by
  intro cfg st
  cases h
  · exact ⟨_, rfl, rfl⟩
  · exact ⟨_, rfl, rfl⟩
  · exact absurd rfl (hn _)
  · exact ⟨_, rfl, rfl⟩

theorem keeps_logLevel (m : Option) (h : BuiltByWith m) (hn : ∀ l, m ≠ WithLogLevel l) :
    Keeps config.logLevel m := by
  intro cfg st
  cases h
  · exact ⟨_, rfl, rfl⟩
  · exact ⟨_, rfl, rfl⟩
  · exact ⟨_, rfl, rfl⟩
  · exact absurd rfl (hn _)

/-- Last write to one field wins, for any projection `π`: if every modifier of the
sequence is one of the four `With...` values, the one at the split point puts `v` and
none after it touches `π`, the loop ends with `π = v`. -/
theorem applyAll_last_with {α : Type} (π : config → α) (v : α) (pre post : List Option)
    (m : Option) (hpre : ∀ x ∈ pre, BuiltByWith x) (hm : Puts π v m)
    (hpost : ∀ x ∈ post, Keeps π x) (cfg cfg' : config) (st st' : State)
    (h : applyAll (pre ++ m :: post) cfg st = .ok (cfg', st')) : π cfg' = v := by
  obtain ⟨c, hc, hv⟩ := applyAll_last π v pre post m
    (fun x hx => keeps_unit_of_built x (built_of_with x (hpre x hx))) hm hpost cfg st
  rw [hc] at h
  cases h
  exact hv

theorem applyAll_none_with {α : Type} (π : config → α) (opts : List Option)
    (hk : ∀ x ∈ opts, Keeps π x) (cfg cfg' : config) (st st' : State)
    (h : applyAll opts cfg st = .ok (cfg', st')) : π cfg' = π cfg := by
  obtain ⟨c, hc, hv⟩ := applyAll_keeps π opts hk cfg st
  rw [hc] at h
  cases h
  exact hv

/-! ## The claims -/

/-- C1 (last write wins): when the package variable holds its initialiser and every
modifier of the sequence was built by `WithTimeout`, `WithRetries`, `WithCache` or
`WithLogLevel`, `NewService` returns a `Service` whose config has, for each of the four
fields, the value carried by the last modifier of the sequence that targets the field
(a modifier after which no later one targets the same field), and the `defaultConfig`
value of the field when no modifier targets it. In particular
`NewService(a, WithRetries(5), WithRetries(2))` has `retries = 2` and
`NewService(a, WithRetries(2), WithRetries(5))` has `retries = 5`. -/
theorem C1_last_write_wins (addr : String) (opts : List Option) (st : State)
    (hst : st.defaultConfig = defaultConfig) (hb : ∀ m ∈ opts, BuiltByWith m) :
    ∃ cfg, NewService.cfg addr opts st = .ok cfg ∧
      (∀ pre d post, opts = pre ++ WithTimeout d :: post →
        (∀ m ∈ post, ∀ d', m ≠ WithTimeout d') → cfg.timeout = d) ∧
      ((∀ m ∈ opts, ∀ d', m ≠ WithTimeout d') → cfg.timeout = defaultConfig.timeout) ∧
      (∀ pre n post, opts = pre ++ WithRetries n :: post →
        (∀ m ∈ post, ∀ n', m ≠ WithRetries n') → cfg.retries = n) ∧
      ((∀ m ∈ opts, ∀ n', m ≠ WithRetries n') → cfg.retries = defaultConfig.retries) ∧
      (∀ pre b post, opts = pre ++ WithCache b :: post →
        (∀ m ∈ post, ∀ b', m ≠ WithCache b') → cfg.cacheEnabled = b) ∧
      ((∀ m ∈ opts, ∀ b', m ≠ WithCache b') →
        cfg.cacheEnabled = defaultConfig.cacheEnabled) ∧
      (∀ pre l post, opts = pre ++ WithLogLevel l :: post →
        (∀ m ∈ post, ∀ l', m ≠ WithLogLevel l') → cfg.logLevel = l) ∧
      ((∀ m ∈ opts, ∀ l', m ≠ WithLogLevel l') → cfg.logLevel = defaultConfig.logLevel) ∧
      (∃ c, NewService.cfg addr [WithRetries 5, WithRetries 2] st = .ok c ∧ c.retries = 2) ∧
      (∃ c, NewService.cfg addr [WithRetries 2, WithRetries 5] st = .ok c ∧ c.retries = 5) := by
  obtain ⟨cfg, hcfg⟩ :=
    applyAll_built opts (fun m hm => built_of_with m (hb m hm)) st.defaultConfig st
  have hpre : ∀ pre x post, opts = pre ++ x :: post → ∀ y ∈ pre, BuiltByWith y :=
    fun pre x post he y hy => hb y (by rw [he]; exact List.mem_append_left _ hy)
  have hpost : ∀ pre x post, opts = pre ++ x :: post → ∀ y ∈ post, BuiltByWith y :=
    fun pre x post he y hy =>
      hb y (by rw [he]; exact List.mem_append_right _ (List.mem_cons_of_mem _ hy))
  refine ⟨cfg, NewService_cfg_of_applyAll addr opts st st cfg hcfg, ?_, ?_, ?_, ?_, ?_, ?_,
    ?_, ?_, ?_, ?_⟩
  · intro pre d post he hn
    subst he
    exact applyAll_last_with config.timeout d pre post _ (hpre pre _ post rfl)
      (puts_timeout d) (fun x hx => keeps_timeout x (hpost pre _ post rfl x hx) (hn x hx))
      _ _ _ _ hcfg
  · intro hn
    rw [← hst]
    exact applyAll_none_with config.timeout opts
      (fun x hx => keeps_timeout x (hb x hx) (hn x hx)) _ _ _ _ hcfg
  · intro pre n post he hn
    subst he
    exact applyAll_last_with config.retries n pre post _ (hpre pre _ post rfl)
      (puts_retries n) (fun x hx => keeps_retries x (hpost pre _ post rfl x hx) (hn x hx))
      _ _ _ _ hcfg
  · intro hn
    rw [← hst]
    exact applyAll_none_with config.retries opts
      (fun x hx => keeps_retries x (hb x hx) (hn x hx)) _ _ _ _ hcfg
  · intro pre b post he hn
    subst he
    exact applyAll_last_with config.cacheEnabled b pre post _ (hpre pre _ post rfl)
      (puts_cache b) (fun x hx => keeps_cache x (hpost pre _ post rfl x hx) (hn x hx))
      _ _ _ _ hcfg
  · intro hn
    rw [← hst]
    exact applyAll_none_with config.cacheEnabled opts
      (fun x hx => keeps_cache x (hb x hx) (hn x hx)) _ _ _ _ hcfg
  · intro pre l post he hn
    subst he
    exact applyAll_last_with config.logLevel l pre post _ (hpre pre _ post rfl)
      (puts_logLevel l) (fun x hx => keeps_logLevel x (hpost pre _ post rfl x hx) (hn x hx))
      _ _ _ _ hcfg
  · intro hn
    rw [← hst]
    exact applyAll_none_with config.logLevel opts
      (fun x hx => keeps_logLevel x (hb x hx) (hn x hx)) _ _ _ _ hcfg
  · exact ⟨_, NewService_cfg_of_applyAll addr _ st st _ rfl, rfl⟩
  · exact ⟨_, NewService_cfg_of_applyAll addr _ st st _ rfl, rfl⟩

/-- Witness of C1 at `NewService("localhost:8080", WithRetries(5), WithTimeout(7),
WithRetries(2))` in the initial state: the config is `{7, 2, true, "info"}`. -/
theorem C1_last_write_wins_witness :
    initialState.defaultConfig = defaultConfig ∧
    (∀ m ∈ [WithRetries 5, WithTimeout 7, WithRetries 2], BuiltByWith m) ∧
    NewService.cfg "localhost:8080" [WithRetries 5, WithTimeout 7, WithRetries 2]
        initialState
      = .ok { timeout := 7, retries := 2, cacheEnabled := true, logLevel := "info" } := by
  have hb : ∀ m ∈ [WithRetries 5, WithTimeout 7, WithRetries 2], BuiltByWith m := by
    intro m hm
    simp only [List.mem_cons, List.mem_singleton, List.not_mem_nil, or_false] at hm
    rcases hm with rfl | rfl | rfl
    · exact .retries 5
    · exact .timeout 7
    · exact .retries 2
  obtain ⟨cfg, h, ht, -, hr, -, -, hc, -, hl, -, -⟩ :=
    C1_last_write_wins "localhost:8080" _ initialState rfl hb
  have h1 : cfg.timeout = 7 :=
    ht [WithRetries 5] 7 [WithRetries 2] rfl (by simp [WithRetries, WithTimeout])
  have h2 : cfg.retries = 2 :=
    hr [WithRetries 5, WithTimeout 7] 2 [] rfl (by simp)
  have h3 : cfg.cacheEnabled = true := hc (by simp [WithRetries, WithTimeout, WithCache])
  have h4 : cfg.logLevel = "info" := hl (by simp [WithRetries, WithTimeout, WithLogLevel])
  refine ⟨rfl, hb, ?_⟩
  rw [h]
  cases cfg
  simp only [Except.ok.injEq, config.mk.injEq]
  exact ⟨h1, h2, h3, h4⟩

/-- C2 (empty sequence): when the package variable holds its initialiser, `NewService`
with no modifier returns, for every address, a `Service` whose config is exactly the
default configuration, that is timeout = 30 seconds (30 000 000 000 ns), retries = 3,
cacheEnabled = true, logLevel = "info". -/
theorem C2_empty_is_default (addr : String) (st : State)
    (hst : st.defaultConfig = defaultConfig) :
    NewService.cfg addr [] st = .ok defaultConfig ∧
    defaultConfig =
      { timeout := 30 * time.Second, retries := 3, cacheEnabled := true, logLevel := "info" } ∧
    30 * time.Second = (30000000000 : Int) := by
  refine ⟨?_, rfl, rfl⟩
  rw [← hst]
  exact NewService_cfg_of_applyAll addr [] st st _ rfl

/-- Witness of C2 at `NewService("localhost:8080")` in the initial state. -/
theorem C2_empty_is_default_witness :
    initialState.defaultConfig = defaultConfig ∧
    NewService.cfg "localhost:8080" [] initialState
      = .ok { timeout := 30000000000, retries := 3, cacheEnabled := true,
              logLevel := "info" } :=
  ⟨rfl, (C2_empty_is_default "localhost:8080" initialState rfl).1⟩

/-- C3 (usage example): when the package variable holds its initialiser,
`NewService("localhost:8080", WithTimeout(60*time.Second), WithRetries(5),
WithCache(false), WithLogLevel("debug"))` returns a `Service` whose config is exactly
`{60 s, 5, false, "debug"}`, and every one of the four fields differs from its default
value. -/
theorem C3_usage_example (st : State) (hst : st.defaultConfig = defaultConfig) :
    ∃ cfg,
      NewService.cfg "localhost:8080"
        [WithTimeout (60 * time.Second), WithRetries 5, WithCache false,
          WithLogLevel "debug"] st = .ok cfg ∧
      cfg = { timeout := 60 * time.Second, retries := 5, cacheEnabled := false,
              logLevel := "debug" } ∧
      cfg.timeout ≠ defaultConfig.timeout ∧ cfg.retries ≠ defaultConfig.retries ∧
      cfg.cacheEnabled ≠ defaultConfig.cacheEnabled ∧
      cfg.logLevel ≠ defaultConfig.logLevel := by
  refine ⟨_, NewService_cfg_of_applyAll _ _ st st _ ?_, rfl, ?_, ?_, ?_, ?_⟩
  · rw [hst]
    rfl
  all_goals decide

/-- Witness of C3 in the initial state, with the timeout spelled in nanoseconds. -/
theorem C3_usage_example_witness :
    initialState.defaultConfig = defaultConfig ∧
    NewService.cfg "localhost:8080"
        [WithTimeout (60 * time.Second), WithRetries 5, WithCache false,
          WithLogLevel "debug"] initialState
      = .ok { timeout := 60000000000, retries := 5, cacheEnabled := false,
              logLevel := "debug" } := by
  obtain ⟨cfg, h, hc, -⟩ := C3_usage_example initialState rfl
  refine ⟨rfl, ?_⟩
  rw [h, hc]
  rfl

/-- C4 (idempotence): for every modifier `m` returned by `WithTimeout`, `WithRetries`,
`WithCache`, `WithLogLevel`, `WithTimeoutFunc` or `WithRetriesFunc` and every config,
applying `m` to the result of applying `m` gives that same result; hence for every
address `NewService(a, m, m)` and `NewService(a, m)` return a `Service` with the same
config. -/
theorem C4_idempotent (m : Option) (hm : BuiltByPackage m) (cfg : config) (st : State)
    (addr : String) :
    (∃ cfg', m.apply cfg st = .ok (cfg', st) ∧ m.apply cfg' st = .ok (cfg', st)) ∧
    (∃ c, NewService.cfg addr [m, m] st = .ok c ∧ NewService.cfg addr [m] st = .ok c) := by
  cases hm <;>
    exact ⟨⟨_, rfl, rfl⟩, _, NewService_cfg_of_applyAll addr _ st st _ rfl,
      NewService_cfg_of_applyAll addr _ st st _ rfl⟩

/-- Witness of C4 at `m = WithRetriesFunc(5)`, the default config and the initial
state. -/
theorem C4_idempotent_witness :
    BuiltByPackage (.optionFunc (WithRetriesFunc 5)) ∧
    (∃ cfg', (Option.optionFunc (WithRetriesFunc 5)).apply defaultConfig initialState
        = .ok (cfg', initialState) ∧
      (Option.optionFunc (WithRetriesFunc 5)).apply cfg' initialState
        = .ok (cfg', initialState)) ∧
    (∃ c, NewService.cfg "a" [.optionFunc (WithRetriesFunc 5),
          .optionFunc (WithRetriesFunc 5)] initialState = .ok c ∧
      NewService.cfg "a" [.optionFunc (WithRetriesFunc 5)] initialState = .ok c) :=
  ⟨.retriesFunc 5,
    C4_idempotent (.optionFunc (WithRetriesFunc 5)) (.retriesFunc 5) defaultConfig
      initialState "a"⟩

/-- C5 as stated fails: the `OptionFunc` value `resetAndToggle` is a non-nil `Option`
that `NewService` accepts, yet applied to the default config it alters two fields
(retries 3 to 0, cacheEnabled true to false), the value it stores in `cacheEnabled` is
computed from the config it receives, and so it is not a state-independent write to
exactly one field. -/
theorem C5_counterexample :
    Option.optionFunc resetAndToggle ≠ Option.nil ∧
    (Option.optionFunc resetAndToggle).apply defaultConfig initialState
      = .ok ({ timeout := 30 * time.Second, retries := 0, cacheEnabled := false,
               logLevel := "info" }, initialState) ∧
    (Option.optionFunc resetAndToggle).apply
        { timeout := 30 * time.Second, retries := 0, cacheEnabled := false,
          logLevel := "info" } initialState
      = .ok ({ timeout := 30 * time.Second, retries := 0, cacheEnabled := true,
               logLevel := "info" }, initialState) ∧
    ¬ WritesOneField (.optionFunc resetAndToggle) := by
  refine ⟨fun h => Option.noConfusion h, rfl, rfl, ?_⟩
  rintro (⟨d, h⟩ | ⟨n, h⟩ | ⟨b, h⟩ | ⟨l, h⟩)
  · have h0 := h defaultConfig initialState
    simp [Option.apply, OptionFunc.apply, resetAndToggle, defaultConfig] at h0
  · have h0 := h defaultConfig initialState
    simp [Option.apply, OptionFunc.apply, resetAndToggle, defaultConfig] at h0
  · have h0 := h defaultConfig initialState
    simp [Option.apply, OptionFunc.apply, resetAndToggle, defaultConfig] at h0
  · have h0 := h defaultConfig initialState
    simp [Option.apply, OptionFunc.apply, resetAndToggle, defaultConfig] at h0

/-- C5 (amended): every modifier returned by one of the six constructors of the package
(`WithTimeout`, `WithRetries`, `WithCache`, `WithLogLevel`, `WithTimeoutFunc`,
`WithRetriesFunc`) is a state-independent write to exactly one field: for every config
`apply` stores in one field a value fixed by the modifier alone and leaves the other
three fields, and the program state, as they were. -/
theorem C5_built_writes_one_field (m : Option) (hm : BuiltByPackage m) :
    WritesOneField m := by
  cases hm
  · exact Or.inl ⟨_, fun _ _ => rfl⟩
  · exact Or.inr (Or.inl ⟨_, fun _ _ => rfl⟩)
  · exact Or.inr (Or.inr (Or.inl ⟨_, fun _ _ => rfl⟩))
  · exact Or.inr (Or.inr (Or.inr ⟨_, fun _ _ => rfl⟩))
  · exact Or.inl ⟨_, fun _ _ => rfl⟩
  · exact Or.inr (Or.inl ⟨_, fun _ _ => rfl⟩)

/-- Witness of the amended C5 at `WithTimeoutFunc(7)`. -/
theorem C5_built_writes_one_field_witness :
    BuiltByPackage (.optionFunc (WithTimeoutFunc 7)) ∧
    WritesOneField (.optionFunc (WithTimeoutFunc 7)) :=
  ⟨.timeoutFunc 7, C5_built_writes_one_field _ (.timeoutFunc 7)⟩

/-- C6 as stated fails: `NewService("localhost:8080", nil)` is a well-typed call whose
loop invokes `apply` on the nil interface value; the call aborts with a nil dereference
and returns no `Service`. -/
theorem C6_counterexample :
    NewService "localhost:8080" [Option.nil] initialState = .error .nilDereference ∧
    ¬ ∃ r, NewService "localhost:8080" [Option.nil] initialState = .ok r := by
  refine ⟨rfl, ?_⟩
  rintro ⟨r, h⟩
  cases h

theorem applyAll_origin {α : Type} (π : config → α) (T : Option → α → Prop)
    (opts : List Option)
    (h : ∀ m ∈ opts, Keeps π m ∨ ∃ v, T m v ∧ Puts π v m) (cfg : config) (st : State) :
    ∃ cfg', applyAll opts cfg st = .ok (cfg', st) ∧
      (π cfg' = π cfg ∨ ∃ m ∈ opts, T m (π cfg')) := by
  induction opts generalizing cfg with
  | nil => exact ⟨cfg, rfl, Or.inl rfl⟩
  | cons x xs ih =>
    have tail : ∀ c1, x.apply cfg st = .ok (c1, st) →
        (π c1 = π cfg ∨ T x (π c1)) →
        ∃ cfg', applyAll (x :: xs) cfg st = .ok (cfg', st) ∧
          (π cfg' = π cfg ∨ ∃ m ∈ x :: xs, T m (π cfg')) := by
      intro c1 h1 hx
      obtain ⟨c2, h2, hor⟩ := ih (fun m hm => h m (List.mem_cons_of_mem x hm)) c1
      refine ⟨c2, by simp only [applyAll, h1, h2], ?_⟩
      rcases hor with hk | ⟨m, hm, ht⟩
      · rcases hx with hx | hx
        · exact Or.inl (hk.trans hx)
        · exact Or.inr ⟨x, List.mem_cons_self x xs, by rw [hk]; exact hx⟩
      · exact Or.inr ⟨m, List.mem_cons_of_mem x hm, ht⟩
    rcases h x (List.mem_cons_self x xs) with hk | ⟨v, hT, hp⟩
    · obtain ⟨c1, h1, hπ⟩ := hk cfg st
      exact tail c1 h1 (Or.inl hπ)
    · obtain ⟨c1, h1, hπ⟩ := hp cfg st
      exact tail c1 h1 (Or.inr (by rw [hπ]; exact hT))

/-- C6 (amended): for every address, every program state and every sequence of
modifiers returned by the six constructors of the package, `NewService` returns a
pointer to a freshly allocated `Service` and reports no fault, and all four fields of
that `Service`'s config are populated: each field holds the value the package variable
`defaultConfig` seeds it with, or the value carried by a modifier of the sequence that
targets the field. -/
theorem C6_built_never_fails (addr : String) (opts : List Option) (st : State)
    (hb : ∀ m ∈ opts, BuiltByPackage m) :
    ∃ p st' cfg, NewService addr opts st = .ok (p, st') ∧
      st'.services[p]? = some { cfg := cfg } ∧
      st.services[p]? = none ∧
      NewService.cfg addr opts st = .ok cfg ∧
      (cfg.timeout = st.defaultConfig.timeout ∨ WithTimeout cfg.timeout ∈ opts ∨
        Option.optionFunc (WithTimeoutFunc cfg.timeout) ∈ opts) ∧
      (cfg.retries = st.defaultConfig.retries ∨ WithRetries cfg.retries ∈ opts ∨
        Option.optionFunc (WithRetriesFunc cfg.retries) ∈ opts) ∧
      (cfg.cacheEnabled = st.defaultConfig.cacheEnabled ∨
        WithCache cfg.cacheEnabled ∈ opts) ∧
      (cfg.logLevel = st.defaultConfig.logLevel ∨ WithLogLevel cfg.logLevel ∈ opts) ∧
      (opts = [] → cfg = st.defaultConfig) := by
  obtain ⟨cfg, hcfg⟩ := applyAll_built opts hb st.defaultConfig st
  have field : ∀ {α : Type} (π : config → α) (T : Option → α → Prop),
      (∀ m, BuiltByPackage m → Keeps π m ∨ ∃ v, T m v ∧ Puts π v m) →
      (π cfg = π st.defaultConfig ∨ ∃ m ∈ opts, T m (π cfg)) := by
    intro α π T hT
    obtain ⟨c, hc, hor⟩ :=
      applyAll_origin π T opts (fun m hm => hT m (hb m hm)) st.defaultConfig st
    rw [hcfg] at hc
    cases hc
    exact hor
  have keep : ∀ {α : Type} (π : config → α) (m : Option),
      (∀ c s, ∃ c', m.apply c s = .ok (c', s) ∧ π c' = π c) → Keeps π m :=
    fun _ _ hk => hk
  refine ⟨_, _, cfg, NewService_of_applyAll addr opts st st cfg hcfg, by simp, by simp,
    NewService_cfg_of_applyAll addr opts st st cfg hcfg, ?_, ?_, ?_, ?_, ?_⟩
  · rcases field config.timeout
        (fun m v => m = WithTimeout v ∨ m = .optionFunc (WithTimeoutFunc v))
        (by
          intro m hm
          cases hm
          · exact Or.inr ⟨_, Or.inl rfl, fun _ _ => ⟨_, rfl, rfl⟩⟩
          · exact Or.inl (fun _ _ => ⟨_, rfl, rfl⟩)
          · exact Or.inl (fun _ _ => ⟨_, rfl, rfl⟩)
          · exact Or.inl (fun _ _ => ⟨_, rfl, rfl⟩)
          · exact Or.inr ⟨_, Or.inr rfl, fun _ _ => ⟨_, rfl, rfl⟩⟩
          · exact Or.inl (fun _ _ => ⟨_, rfl, rfl⟩)) with h | ⟨m, hm, rfl | rfl⟩
    · exact Or.inl h
    · exact Or.inr (Or.inl hm)
    · exact Or.inr (Or.inr hm)
  · rcases field config.retries
        (fun m v => m = WithRetries v ∨ m = .optionFunc (WithRetriesFunc v))
        (by
          intro m hm
          cases hm
          · exact Or.inl (fun _ _ => ⟨_, rfl, rfl⟩)
          · exact Or.inr ⟨_, Or.inl rfl, fun _ _ => ⟨_, rfl, rfl⟩⟩
          · exact Or.inl (fun _ _ => ⟨_, rfl, rfl⟩)
          · exact Or.inl (fun _ _ => ⟨_, rfl, rfl⟩)
          · exact Or.inl (fun _ _ => ⟨_, rfl, rfl⟩)
          · exact Or.inr ⟨_, Or.inr rfl, fun _ _ => ⟨_, rfl, rfl⟩⟩) with h | ⟨m, hm, rfl | rfl⟩
    · exact Or.inl h
    · exact Or.inr (Or.inl hm)
    · exact Or.inr (Or.inr hm)
  · rcases field config.cacheEnabled (fun m v => m = WithCache v)
        (by
          intro m hm
          cases hm
          · exact Or.inl (fun _ _ => ⟨_, rfl, rfl⟩)
          · exact Or.inl (fun _ _ => ⟨_, rfl, rfl⟩)
          · exact Or.inr ⟨_, rfl, fun _ _ => ⟨_, rfl, rfl⟩⟩
          · exact Or.inl (fun _ _ => ⟨_, rfl, rfl⟩)
          · exact Or.inl (fun _ _ => ⟨_, rfl, rfl⟩)
          · exact Or.inl (fun _ _ => ⟨_, rfl, rfl⟩)) with h | ⟨m, hm, rfl⟩
    · exact Or.inl h
    · exact Or.inr hm
  · rcases field config.logLevel (fun m v => m = WithLogLevel v)
        (by
          intro m hm
          cases hm
          · exact Or.inl (fun _ _ => ⟨_, rfl, rfl⟩)
          · exact Or.inl (fun _ _ => ⟨_, rfl, rfl⟩)
          · exact Or.inl (fun _ _ => ⟨_, rfl, rfl⟩)
          · exact Or.inr ⟨_, rfl, fun _ _ => ⟨_, rfl, rfl⟩⟩
          · exact Or.inl (fun _ _ => ⟨_, rfl, rfl⟩)
          · exact Or.inl (fun _ _ => ⟨_, rfl, rfl⟩)) with h | ⟨m, hm, rfl⟩
    · exact Or.inl h
    · exact Or.inr hm
  · intro he
    subst he
    cases hcfg
    rfl

/-- Witness of the amended C6 at `NewService("a", WithCache(false),
WithRetriesFunc(-1))` in the initial state: the call returns the first `Service`, whose
config is `{30 s, -1, false, "info"}`. -/
theorem C6_built_never_fails_witness :
    (∀ m ∈ [WithCache false, .optionFunc (WithRetriesFunc (-1))], BuiltByPackage m) ∧
    NewService.cfg "a" [WithCache false, .optionFunc (WithRetriesFunc (-1))] initialState
      = .ok { timeout := 30000000000, retries := -1, cacheEnabled := false,
              logLevel := "info" } ∧
    ∃ p st' cfg,
      NewService "a" [WithCache false, .optionFunc (WithRetriesFunc (-1))] initialState
        = .ok (p, st') ∧
      st'.services[p]? = some { cfg := cfg } ∧
      initialState.services[p]? = none ∧
      NewService.cfg "a" [WithCache false, .optionFunc (WithRetriesFunc (-1))]
        initialState = .ok cfg ∧
      (cfg.timeout = initialState.defaultConfig.timeout ∨
        WithTimeout cfg.timeout ∈ [WithCache false, .optionFunc (WithRetriesFunc (-1))] ∨
        Option.optionFunc (WithTimeoutFunc cfg.timeout)
          ∈ [WithCache false, .optionFunc (WithRetriesFunc (-1))]) ∧
      (cfg.retries = initialState.defaultConfig.retries ∨
        WithRetries cfg.retries ∈ [WithCache false, .optionFunc (WithRetriesFunc (-1))] ∨
        Option.optionFunc (WithRetriesFunc cfg.retries)
          ∈ [WithCache false, .optionFunc (WithRetriesFunc (-1))]) ∧
      (cfg.cacheEnabled = initialState.defaultConfig.cacheEnabled ∨
        WithCache cfg.cacheEnabled
          ∈ [WithCache false, .optionFunc (WithRetriesFunc (-1))]) ∧
      (cfg.logLevel = initialState.defaultConfig.logLevel ∨
        WithLogLevel cfg.logLevel
          ∈ [WithCache false, .optionFunc (WithRetriesFunc (-1))]) ∧
      ([WithCache false, Option.optionFunc (WithRetriesFunc (-1))] = [] →
        cfg = initialState.defaultConfig) := by
  have hb : ∀ m ∈ [WithCache false, .optionFunc (WithRetriesFunc (-1))],
      BuiltByPackage m := by
    intro m hm
    simp only [List.mem_cons, List.mem_singleton, List.not_mem_nil, or_false] at hm
    rcases hm with rfl | rfl
    · exact .cache false
    · exact .retriesFunc (-1)
  exact ⟨hb, rfl, C6_built_never_fails "a" _ initialState hb⟩

/-- C7 (no validation): when the package variable holds its initialiser, for every
integer `n`, negative ones included, and every address, `NewService(a, WithRetries(n))`
returns a `Service` whose config has `retries = n` and whose timeout, cacheEnabled and
logLevel are the defaults; no `n` is rejected, clamped or replaced. -/
theorem C7_retries_not_validated (addr : String) (n : Int) (st : State)
    (hst : st.defaultConfig = defaultConfig) :
    ∃ cfg, NewService.cfg addr [WithRetries n] st = .ok cfg ∧
      cfg.retries = n ∧ cfg.timeout = defaultConfig.timeout ∧
      cfg.cacheEnabled = defaultConfig.cacheEnabled ∧
      cfg.logLevel = defaultConfig.logLevel := by
  refine ⟨{ defaultConfig with retries := n },
    NewService_cfg_of_applyAll addr _ st st _ ?_, rfl, rfl, rfl, rfl⟩
  rw [hst]
  rfl

/-- Witness of C7 at `n = -4` in the initial state. -/
theorem C7_retries_not_validated_witness :
    initialState.defaultConfig = defaultConfig ∧
    ∃ cfg, NewService.cfg "localhost:8080" [WithRetries (-4)] initialState = .ok cfg ∧
      cfg.retries = -4 ∧ cfg.timeout = defaultConfig.timeout ∧
      cfg.cacheEnabled = defaultConfig.cacheEnabled ∧
      cfg.logLevel = defaultConfig.logLevel :=
  ⟨rfl, C7_retries_not_validated "localhost:8080" (-4) initialState rfl⟩

theorem apply_funcCounterpart (m m' : Option) (h : FuncCounterpart m m') (cfg : config)
    (st : State) : m'.apply cfg st = m.apply cfg st := by
  cases h <;> rfl

theorem applyAll_funcCounterpart (opts opts' : List Option)
    (h : List.Forall₂ FuncCounterpart opts opts') (cfg : config) (st : State) :
    applyAll opts' cfg st = applyAll opts cfg st := by
  induction h generalizing cfg st with
  | nil => rfl
  | cons hm _ ih =>
    simp only [applyAll, apply_funcCounterpart _ _ hm]
    split
    · rfl
    · exact ih _ _

/-- C8 (closure variant): for every duration `d`, integer `n`, config and program state,
applying `WithTimeoutFunc(d)` gives the same outcome as applying `WithTimeout(d)` and
applying `WithRetriesFunc(n)` the same as applying `WithRetries(n)`; hence when the
argument list `opts'` arises from `opts` by replacing any of its `WithTimeout` /
`WithRetries` arguments by the closure counterpart, `NewService` returns the same
result, with the same `Service` config, for both lists. -/
theorem C8_func_equivalent (d : time.Duration) (n : Int) (cfg : config) (st : State)
    (addr : String) (opts opts' : List Option)
    (h : List.Forall₂ FuncCounterpart opts opts') :
    (Option.optionFunc (WithTimeoutFunc d)).apply cfg st = (WithTimeout d).apply cfg st ∧
    (Option.optionFunc (WithRetriesFunc n)).apply cfg st = (WithRetries n).apply cfg st ∧
    NewService addr opts' st = NewService addr opts st ∧
    NewService.cfg addr opts' st = NewService.cfg addr opts st := by
  have hN : NewService addr opts' st = NewService addr opts st := by
    simp only [NewService, applyAll_funcCounterpart opts opts' h]
  refine ⟨rfl, rfl, hN, ?_⟩
  simp only [NewService.cfg, hN]

/-- Witness of C8: in `NewService("a", WithTimeout(60 s), WithCache(false),
WithRetries(5))` the first and the last argument are replaced by their closure
counterparts. -/
theorem C8_func_equivalent_witness :
    List.Forall₂ FuncCounterpart
      [WithTimeout (60 * time.Second), WithCache false, WithRetries 5]
      [.optionFunc (WithTimeoutFunc (60 * time.Second)), WithCache false,
        .optionFunc (WithRetriesFunc 5)] ∧
    NewService.cfg "a"
        [.optionFunc (WithTimeoutFunc (60 * time.Second)), WithCache false,
          .optionFunc (WithRetriesFunc 5)] initialState
      = NewService.cfg "a"
        [WithTimeout (60 * time.Second), WithCache false, WithRetries 5] initialState :=
  have h : List.Forall₂ FuncCounterpart
      [WithTimeout (60 * time.Second), WithCache false, WithRetries 5]
      [.optionFunc (WithTimeoutFunc (60 * time.Second)), WithCache false,
        .optionFunc (WithRetriesFunc 5)] :=
    .cons (.timeout _) (.cons (.same _) (.cons (.retries _) .nil))
  ⟨h, (C8_func_equivalent 0 0 defaultConfig initialState "a" _ _ h).2.2.2⟩

/-- C9 (no shared mutable state): for every address, every program state and every
sequence of modifiers returned by the six constructors of the package, `NewService`
returns, the package variable `defaultConfig` holds after the call the value it held
before it, every `Service` that existed before the call still has its config after it,
and a later `NewService` call without modifiers yields a `Service` whose config is that
unchanged value, which is the default configuration whenever the variable held its
initialiser before the first call. -/
theorem C9_default_not_modified (addr addr' : String) (opts : List Option) (st : State)
    (hb : ∀ m ∈ opts, BuiltByPackage m) :
    ∃ p st', NewService addr opts st = .ok (p, st') ∧
      st'.defaultConfig = st.defaultConfig ∧
      (∀ (q : Nat) (s : Service), st.services[q]? = some s → st'.services[q]? = some s) ∧
      NewService.cfg addr' [] st' = .ok st.defaultConfig ∧
      (st.defaultConfig = defaultConfig → NewService.cfg addr' [] st' = .ok defaultConfig) := by
  obtain ⟨cfg, hcfg⟩ := applyAll_built opts hb st.defaultConfig st
  have hnext : NewService.cfg addr'
      [] { st with services := st.services ++ [{ cfg := cfg }] } = .ok st.defaultConfig :=
    NewService_cfg_of_applyAll addr' [] _ _ _ rfl
  refine ⟨_, _, NewService_of_applyAll addr opts st st cfg hcfg, rfl, ?_, hnext, ?_⟩
  · intro q s hq
    have hlt : q < st.services.length := by
      by_contra hge
      rw [List.getElem?_eq_none (Nat.le_of_not_lt hge)] at hq
      cases hq
    simp only [List.getElem?_append_left hlt, hq]
  · intro hd
    rw [hnext, hd]

/-- Witness of C9: in a state that already holds a `Service` with three retries replaced
by nine, `NewService("a", WithRetries(5), WithTimeoutFunc(1))` leaves the package
variable and the earlier `Service` alone, and `NewService("b")` afterwards has the
default configuration. -/
theorem C9_default_not_modified_witness :
    (∀ m ∈ [WithRetries 5, .optionFunc (WithTimeoutFunc 1)], BuiltByPackage m) ∧
    ∃ p st',
      NewService "a" [WithRetries 5, .optionFunc (WithTimeoutFunc 1)]
        { defaultConfig := defaultConfig,
          services := [{ cfg := { defaultConfig with retries := 9 } }] } = .ok (p, st') ∧
      st'.defaultConfig = defaultConfig ∧
      st'.services[0]? = some { cfg := { defaultConfig with retries := 9 } } ∧
      NewService.cfg "b" [] st' = .ok defaultConfig := by
  have hb : ∀ m ∈ [WithRetries 5, .optionFunc (WithTimeoutFunc 1)], BuiltByPackage m := by
    intro m hm
    simp only [List.mem_cons, List.mem_singleton, List.not_mem_nil, or_false] at hm
    rcases hm with rfl | rfl
    · exact .retries 5
    · exact .timeoutFunc 1
  obtain ⟨p, st', h1, h2, h3, -, h5⟩ :=
    C9_default_not_modified "a" "b" _
      { defaultConfig := defaultConfig,
        services := [{ cfg := { defaultConfig with retries := 9 } }] } hb
  exact ⟨hb, p, st', h1, h2, h3 0 _ rfl, h5 rfl⟩

/-- C10 (request validation): for every request (and every address the runtime gives
the error value), `validateCreateUserRequest` returns nil if and only if `Name` and
`Email` are both non-empty; in every other case the returned error is non-nil and
`errors.Is(err, ErrInvalidInput)` holds; and when both fields are empty the returned
error is the one for the missing name, with text "invalid input: name is required". -/
theorem C10_validate_create_user_request (req : CreateUserRequest) (fresh : Nat) :
    (validateCreateUserRequest req fresh = .nil ↔ req.Name ≠ "" ∧ req.Email ≠ "") ∧
    (¬ (req.Name ≠ "" ∧ req.Email ≠ "") →
      validateCreateUserRequest req fresh ≠ .nil ∧
      errors.Is (validateCreateUserRequest req fresh) ErrInvalidInput = true) ∧
    (req.Name = "" ∧ req.Email = "" →
      validateCreateUserRequest req fresh
        = fmt.ErrorfW fresh ": name is required" ErrInvalidInput ∧
      (validateCreateUserRequest req fresh).Error = "invalid input: name is required") := by
  have hIs : ∀ rest, errors.Is (fmt.ErrorfW fresh rest ErrInvalidInput) ErrInvalidInput
      = true := by
    intro rest
    simp [errors.Is, errors.is, error.same, fmt.ErrorfW, ErrInvalidInput]
  have hne : ∀ rest, fmt.ErrorfW fresh rest ErrInvalidInput ≠ .nil :=
    fun rest h => nomatch h
  by_cases hn : req.Name = ""
  · have hv : validateCreateUserRequest req fresh
        = fmt.ErrorfW fresh ": name is required" ErrInvalidInput := by
      simp only [validateCreateUserRequest, hn, if_true]
    rw [hv]
    refine ⟨⟨fun h => absurd h (hne _), fun h => absurd hn h.1⟩,
      fun _ => ⟨hne _, hIs _⟩, fun _ => ⟨rfl, ?_⟩⟩
    simp only [fmt.ErrorfW, error.Error, ErrInvalidInput]
    decide
  · by_cases he : req.Email = ""
    · have hv : validateCreateUserRequest req fresh
          = fmt.ErrorfW fresh ": email is required" ErrInvalidInput := by
        simp only [validateCreateUserRequest, hn, he, if_true, if_false]
      rw [hv]
      exact ⟨⟨fun h => absurd h (hne _), fun h => absurd he h.2⟩,
        fun _ => ⟨hne _, hIs _⟩, fun h => absurd h.1 hn⟩
    · have hv : validateCreateUserRequest req fresh = .nil := by
        simp only [validateCreateUserRequest, hn, he, if_false]
      rw [hv]
      exact ⟨⟨fun _ => ⟨hn, he⟩, fun _ => rfl⟩, fun h => absurd ⟨hn, he⟩ h,
        fun h => absurd h.1 hn⟩

/-- Witness of C10 at the request with both fields empty (error allocated at address 7)
and at a complete request; two errors from separate calls are distinct values, as
everywhere in Go. -/
theorem C10_validate_create_user_request_witness :
    validateCreateUserRequest { Name := "", Email := "" } 7
      = .wrapError 7 "invalid input: name is required" (.errorString 0 "invalid input") ∧
    errors.Is (validateCreateUserRequest { Name := "", Email := "" } 7) ErrInvalidInput
      = true ∧
    errors.Is (validateCreateUserRequest { Name := "", Email := "" } 7) ErrUserExists
      = false ∧
    errors.Is (validateCreateUserRequest { Name := "", Email := "" } 7)
        (validateCreateUserRequest { Name := "", Email := "" } 8) = false ∧
    validateCreateUserRequest { Name := "ann", Email := "ann@example.org" } 7 = .nil := by
  have h := C10_validate_create_user_request { Name := "", Email := "" } 7
  have h' := C10_validate_create_user_request { Name := "ann", Email := "ann@example.org" } 7
  refine ⟨?_, (h.2.1 (by decide)).2, by decide, by decide, h'.1.2 (by decide)⟩
  rw [(h.2.2 ⟨rfl, rfl⟩).1]
  decide

end Example
